import Mathlib

/-!
Shallow embedding of the core of the FML library: the B-spline particle-grid
interpolation (src/Interpolation/ParticleGridInterpolation.h), the distributed
FFTW grid (src/FFTWGrid/FFTWGrid.h) and the friends-of-friends halo binning
(src/FML/FriendsOfFriends/FoFBinning.h).

Conventions of the embedding:
* `FloatType` (double) is modelled by `ℚ` (exact arithmetic); `int`,
  `ptrdiff_t` and `IndexIntType` (long long) are modelled by `ℕ`/`ℤ` (the
  values appearing in these computations stay far below any overflow bound).
* C++ integer division of nonnegative ints is `Nat` division; the C cast
  `(int)x` of a double is truncation toward zero (`cppTrunc`).
* The grid's backing real buffer is a total function `ℤ → ℚ`, indexed in
  units of `FloatType` elements relative to `get_real_grid()` (the owned
  base, so left-ghost elements sit at negative offsets).
* Compile-time defaults are the ones the spec lists first: non-MPI single
  task (`ThisTask = 0`, `NTasks = 1`, so `Local_nx = Nmesh`,
  `Local_x_start = 0`), no `CELLCENTERSHIFTED`, no
  `PARTICLES_WITH_DIFFERENT_MASS` (unit mass), no bounds checking.
* `assert_mpi` aborts the program; a function that can assert is modelled
  with `Except String`.
-/

namespace FMLSpec

/-! ### B-spline kernels, ParticleGridInterpolation.h lines 169-189 -/

/-- `kernel<ORDER>(x)` from the source: the 1-D B-spline mass-assignment
kernels for orders 1..5 (NGP, CIC, TSC, PCS, PQS), with the exact branch
conditions (`<=` for order 1, `<` elsewhere) and closed forms of the code. -/
def kernel (ORDER : ℕ) (x : ℚ) : ℚ :=
  match ORDER with
  | 1 => if x ≤ 1/2 then 1 else 0
  | 2 => if x < 1 then 1 - x else 0
  | 3 => if x < 1/2 then 3/4 - x*x else if x < 3/2 then (1/2) * (3/2 - x) * (3/2 - x) else 0
  | 4 => if x < 1 then 2/3 + x*x*(-1 + (1/2)*x)
         else if x < 2 then (2 - x)*(2 - x)*(2 - x)/6 else 0
  | 5 => if x < 1/2 then 115/192 + (1/4)*x*x*(x*x - 5/2)
         else if x < 3/2 then (55 + 4*x*(5 - 2*x*(15 + 2*(-5 + x)*x)))/96
         else if x < 5/2 then (5 - 2*x)*(5 - 2*x)*(5 - 2*x)*(5 - 2*x)/384
         else 0
  | _ => 0

/-- The stencil origin rule of `particles_to_grid` (lines 322-337, default
non-cell-centered layout): for even order `xstart = -ORDER/2 + 1`; for odd
order `xstart = -ORDER/2`, shifted one to the right when the in-cell offset
exceeds `1/2`.  C++ `-ORDER/2` truncates toward zero, i.e. `-(ORDER / 2)`. -/
def xstart (ORDER : ℕ) (dx : ℚ) : ℤ :=
  if ORDER % 2 = 0 then -(ORDER / 2 : ℕ) + 1
  else (if dx > 1/2 then -(ORDER / 2 : ℕ) + 1 else -(ORDER / 2 : ℕ))

/-- The per-axis stencil offset for the `i`-th of the `ORDER^N` stencil cells
(line 344): `ORDER == 1 ? 0 : xstart[idim] + (i/n % ORDER)` with
`n = ORDER^idim`. -/
def goLeftRightOrStay (ORDER : ℕ) (xs : ℤ) (i idim : ℕ) : ℤ :=
  if ORDER = 1 then 0 else xs + ((i / ORDER ^ idim) % ORDER : ℕ)

/-- `std::fabs`. -/
def cppFabs (q : ℚ) : ℚ := if q < 0 then -q else q

/-- The weight the scatter loop (lines 341-352) gives stencil cell `i` for a
particle whose in-cell offsets are `ds` (one rational per axis):
`∏_idim kernel<ORDER>(fabs(-x[idim] + go_left_right_or_stay))`. -/
def stencilWeight (ORDER : ℕ) (ds : List ℚ) (i : ℕ) : ℚ :=
  (List.range ds.length).foldl
    (fun w idim =>
      w * kernel ORDER
        (cppFabs ((-(ds.getD idim 0)) + (goLeftRightOrStay ORDER (xstart ORDER (ds.getD idim 0)) i idim : ℤ))))
    1

/-- The sum of all `ORDER^N` scatter weights of one particle (the quantity
`sumweights` accumulated at line 364 and asserted close to 1 under
`DEBUG_INTERPOL` at lines 367-371). -/
def scatterWeightSum (ORDER : ℕ) (ds : List ℚ) : ℚ :=
  ((List.range (ORDER ^ ds.length)).map (stencilWeight ORDER ds)).sum

/-! ### The real-range iterator, FFTWGrid.h lines 289-323 and 354-364 -/

/-- `LoopIteratorReal`: state of the iterator over active real cells. -/
structure LoopIteratorReal where
  index : ℕ
  real_index : ℕ
  Nmesh : ℕ
  odd : ℕ

/-- The constructor `LoopIteratorReal(_index, _Nmesh)` (line 294):
`real_index = _index + 2*(_index/_Nmesh)`, `odd = _Nmesh % 2`. -/
def LoopIteratorReal.mk' (i M : ℕ) : LoopIteratorReal :=
  { index := i, real_index := i + 2 * (i / M), Nmesh := M, odd := M % 2 }

/-- `operator++` (lines 302-307): increment `index`; when the new `index` is
a multiple of `Nmesh` advance `real_index` by `odd ? 1 : 2`; then increment
`real_index`. -/
def LoopIteratorReal.inc (it : LoopIteratorReal) : LoopIteratorReal :=
  let index' := it.index + 1
  let skip := if index' % it.Nmesh = 0 then (if it.odd = 1 then 1 else 2) else 0
  { it with index := index', real_index := it.real_index + skip + 1 }

/-- The iterator after `n` increments. -/
def LoopIteratorReal.incN : ℕ → LoopIteratorReal → LoopIteratorReal
  | 0, it => it
  | n + 1, it => LoopIteratorReal.incN n it.inc

/-- The value `*it` emitted by the real-range iterator after `n` increments of
`begin` of `RealRange(0, local_nx*M^(N-1), M)` (`get_real_range`, line 363). -/
def realRangeValue (n M : ℕ) : ℕ :=
  (LoopIteratorReal.incN n (LoopIteratorReal.mk' 0 M)).real_index

/-! ### Ghost-slice requirements, ParticleGridInterpolation.h lines 151-161 -/

/-- `get_extra_slices_needed_by_order<ORDER>()` in the default
(non-`CELLCENTERSHIFTED`) layout: `(0,0)` for order 1, `(p/2, p/2+1)` for odd
`p`, `(p/2-1, p/2)` for even `p`. -/
def extraSlicesNeededByOrder (ORDER : ℕ) : ℕ × ℕ :=
  if ORDER = 1 then (0, 0)
  else if ORDER % 2 = 1 then (ORDER / 2, ORDER / 2 + 1)
  else (ORDER / 2 - 1, ORDER / 2)

/-! ### The FFTWGrid shape and real-index algebra, FFTWGrid.h -/

/-- Shape parameters of an `FFTWGrid<N>(Nmesh, n_extra_left, n_extra_right)`.
In the single-task build `Local_nx = Nmesh` and `Local_x_start = 0`. -/
structure GridShape where
  N : ℕ
  M : ℕ
  gL : ℕ
  gR : ℕ

/-- `NmeshTotComplexSlice = (Nmesh/2+1) * Nmesh^(N-2)` (line 672). -/
def slabComplex (sh : GridShape) : ℕ := (sh.M / 2 + 1) * sh.M ^ (sh.N - 2)

/-- `NmeshTotRealSlice = 2 * NmeshTotComplexSlice` (line 673). -/
def slabReal (sh : GridShape) : ℕ := 2 * slabComplex sh

/-- `Local_x_start` of the single-task build. -/
def localXStart : ℤ := 0

/-- `get_index_real(coord)` (lines 700-716 and 745-769): the linear index into
the buffer returned by `get_real_grid()`, i.e. relative to the owned base.
The source special-cases `N == 2` and `N == 3` and otherwise runs
`index = coord[0]; for idim in [1, N-2]: index = index*Nmesh + coord[idim];
index = index*(2*(Nmesh/2+1)) + coord[N-1]`, which reads the middle
coordinates `coord[1..N-2]` in order, i.e. `coord.tail.dropLast`. -/
def get_index_real (M : ℕ) (coord : List ℤ) : ℤ :=
  if coord.length = 2 then
    coord.getD 0 0 * (2 * (M / 2 + 1) : ℕ) + coord.getD 1 0
  else if coord.length = 3 then
    ((M : ℤ) * coord.getD 0 0 + coord.getD 1 0) * (2 * (M / 2 + 1) : ℕ) + coord.getD 2 0
  else
    (coord.tail.dropLast.foldl (fun a c => a * (M : ℤ) + c) (coord.headD 0)) *
      (2 * (M / 2 + 1) : ℕ) + coord.getLastD 0

/-- Modelled from the spec (§4.A): the padded real linear index into the
owned+ghost buffer, counted from the raw allocation base:
`idx_real = (((…(c0 + gL)·M + c1)·M + c2)…)·(2·(M/2+1)) + c_{N−1}`. -/
def specIdxReal (M gL : ℕ) (coord : List ℤ) : ℤ :=
  match coord.dropLast with
  | [] => coord.getLastD 0
  | c0 :: mid =>
      (mid.foldl (fun a c => a * (M : ℤ) + c) (c0 + (gL : ℤ))) * (2 * (M / 2 + 1) : ℕ) +
        coord.getLastD 0

/-! ### The scatter `particles_to_grid`, ParticleGridInterpolation.h 244-375

The real buffer is a total function `ℤ → ℚ` in `FloatType` elements relative
to `get_real_grid()`; `add_real(coord, v)` is `get_real_grid()[get_index_real
coord] += v` (FFTWGrid.h lines 957-961), so it acts at offset
`get_index_real` directly.  The raw allocation occupies offsets
`[-gL*slabReal, (M+gR)*slabReal)` in this frame. -/

/-- The C cast `(int)x` of a `double`: truncation toward zero. -/
def cppTrunc (q : ℚ) : ℤ := if 0 ≤ q then ⌊q⌋ else -⌊-q⌋

/-- `fill_real_grid(val)` (lines 502-513): writes `val` to all
`NmeshTotRealAlloc` elements of the allocation, ghosts and padding included. -/
def fillReal (sh : GridShape) (v : ℚ) (buf : ℤ → ℚ) : ℤ → ℚ :=
  fun j => if -((sh.gL : ℤ) * slabReal sh) ≤ j ∧ j < ((sh.M + sh.gR : ℕ) : ℤ) * slabReal sh
           then v else buf j

/-- Lines 305-317 of the scatter: per axis, `x = pos*Nmesh`, `ix = (int)x`,
`x -= ix`; then `ix[0] -= Local_x_start` and, for the periodic axes
`idim ≥ 1`, `if (ix == Nmesh) ix = 0`.  Returns the adjusted cell indices
and the in-cell offsets. -/
def scatterPrep (M : ℕ) (pos : List ℚ) : List ℤ × List ℚ :=
  let xs := pos.map (fun p => p * (M : ℚ))
  let ixs := xs.map cppTrunc
  let ds := List.zipWith (fun x i => x - (i : ℚ)) xs ixs
  let ixs' := match ixs with
    | [] => []
    | i0 :: rest => (i0 - localXStart) :: rest.map (fun i => if i = (M : ℤ) then 0 else i)
  (ixs', ds)

/-- The periodic wrap of lines 356-359, applied to axes `idim ≥ 1`:
`if (icoord >= Nmesh) icoord -= Nmesh; if (icoord < 0) icoord += Nmesh`. -/
def periodicWrap (M : ℕ) (c : ℤ) : ℤ :=
  let c1 := if (M : ℤ) ≤ c then c - M else c
  if c1 < 0 then c1 + M else c1

/-- The grid coordinate of the `i`-th stencil cell (lines 345 and 354-360):
`ix_nbor[idim] = ix[idim] + go_left_right_or_stay`, wrapped on axes
`idim ≥ 1`. -/
def stencilCoord (ORDER M : ℕ) (ixs : List ℤ) (ds : List ℚ) (i : ℕ) : List ℤ :=
  (List.range ixs.length).map (fun idim =>
    let c := ixs.getD idim 0 + goLeftRightOrStay ORDER (xstart ORDER (ds.getD idim 0)) i idim
    if idim = 0 then c else periodicWrap M c)

/-- The particle mass: `PARTICLES_WITH_DIFFERENT_MASS` is off, so
`const constexpr double mass = 1.0` (line 294). -/
def massConst : ℚ := 1

/-- Deposit of one particle (lines 298-372): for each of the `ORDER^N`
stencil cells add `w * norm_fac * mass` at the cell's real index. -/
def depositParticle (ORDER M : ℕ) (normFac : ℚ) (pos : List ℚ) (buf : ℤ → ℚ) : ℤ → ℚ :=
  let pr := scatterPrep M pos
  (List.range (ORDER ^ pos.length)).foldl
    (fun b i =>
      let w := stencilWeight ORDER pr.2 i
      let idx := get_index_real M (stencilCoord ORDER M pr.1 pr.2 i)
      fun j => if j = idx then b j + w * normFac * massConst else b j)
    buf

/-- `add_contribution_from_extra_slices` (lines 503-564), single-task branch
(`USE_MPI` off, so `temp` aliases the ghost slice itself):
for `i < n_extra_right`, owned slab `i` gets `ghost_right[i] + 1` added
element-wise; for `i in [1, n_extra_left]`, owned slab `Local_nx - i` gets
`ghost_left at get_real_grid() - i*slice + 1` added element-wise. -/
def addContributionFromExtraSlices (sh : GridShape) (buf : ℤ → ℚ) : ℤ → ℚ :=
  let nslice : ℤ := slabReal sh
  let nx : ℤ := sh.M
  let step1 := (List.range sh.gR).foldl
    (fun b i => (List.range (slabReal sh)).foldl
      (fun b2 j => fun k =>
        if k = (i : ℤ) * nslice + (j : ℤ) then b2 k + (b2 ((nx + i) * nslice + j) + 1) else b2 k)
      b) buf
  (List.range sh.gL).foldl
    (fun b i0 =>
      let i : ℤ := (i0 : ℤ) + 1
      (List.range (slabReal sh)).foldl
        (fun b2 j => fun k =>
          if k = (nx - i) * nslice + (j : ℤ) then b2 k + (b2 (-i * nslice + j) + 1) else b2 k)
        b) step1

/-- The assertion message of lines 252-253. -/
def tooFewExtraSlicesMsg : String := "Too few extra slices"

/-- `particles_to_grid<N, ORDER>` (lines 244-375), single task: assert the
ghost widths, pre-fill the whole allocation with `-1`, deposit every particle
with `norm_fac = Nmesh^N / NumPartTot` and unit mass, then run the ghost
reduction.  An `assert_mpi` failure is the `Except.error` case. -/
def particlesToGrid (sh : GridShape) (ORDER : ℕ) (parts : List (List ℚ)) (numPartTot : ℕ)
    (buf : ℤ → ℚ) : Except String (ℤ → ℚ) :=
  let nextra := extraSlicesNeededByOrder ORDER
  if nextra.1 ≤ sh.gL ∧ nextra.2 ≤ sh.gR then
    let buf1 := fillReal sh (-1) buf
    let normFac := (sh.M : ℚ) ^ sh.N / (numPartTot : ℚ)
    let buf2 := parts.foldl (fun b p => depositParticle ORDER sh.M normFac p b) buf1
    Except.ok (addContributionFromExtraSlices sh buf2)
  else Except.error tooFewExtraSlicesMsg

/-- All active-cell coordinate tuples `(c0, …, c_{n-1})` with every component
in `[0, M)` (single task: `Local_nx = M`, so `c0` also runs over `[0, M)`). -/
def coordTuples (M : ℕ) : ℕ → List (List ℤ)
  | 0 => [[]]
  | n + 1 => ((List.range M).map (fun c => (c : ℤ))).flatMap
      (fun c => (coordTuples M n).map (fun t => c :: t))

/-- The sum of the real field over all active owned cells (the aggregate of
spec §8.5, read through `get_real`, i.e. `get_real_grid()[get_index_real]`). -/
def sumActiveCells (sh : GridShape) (buf : ℤ → ℚ) : ℚ :=
  ((coordTuples sh.M sh.N).map (fun c => buf (get_index_real sh.M c))).sum

/-! ### The gather `interpolate_grid_to_particle_positions`, lines 377-497 -/

/-- Lines 402-429 of the gather: `x = pos*Nmesh`, `ix = (int)x`, then the
sanity clamps (`ix[0]` clamped into `[Local_x_start, Local_x_start+Local_nx)`,
periodic axes clamped to `Nmesh-1`), then `x -= ix` and
`ix[0] -= Local_x_start`. -/
def gatherPrep (M : ℕ) (pos : List ℚ) : List ℤ × List ℚ :=
  let xs := pos.map (fun p => p * (M : ℚ))
  let ixs0 := xs.map cppTrunc
  let ixs : List ℤ := match ixs0 with
    | [] => []
    | i0 :: rest =>
        (if i0 = localXStart + (M : ℤ) then localXStart + (M : ℤ) - 1
         else if i0 < localXStart then localXStart else i0) ::
        rest.map (fun i => if i = (M : ℤ) then (M : ℤ) - 1 else i)
  let ds := List.zipWith (fun x i => x - (i : ℚ)) xs ixs
  let ixs' : List ℤ := match ixs with
    | [] => []
    | i0 :: rest => (i0 - localXStart) :: rest
  (ixs', ds)

/-- The interpolated value of one particle (lines 458-485):
`∑_i w_i * grid.get_real(icoord_i)` over the same stencil as the scatter. -/
def interpolateValue (ORDER M : ℕ) (buf : ℤ → ℚ) (pos : List ℚ) : ℚ :=
  let pr := gatherPrep M pos
  ((List.range (ORDER ^ pos.length)).map
    (fun i => buf (get_index_real M (stencilCoord ORDER M pr.1 pr.2 i)) * stencilWeight ORDER pr.2 i)).sum

/-- The assertion message of lines 385-386. -/
def gridNotAllocatedMsg : String := "Grid has to be already allocated!"

/-- `interpolate_grid_to_particle_positions<N, ORDER>` (lines 377-497):
asserts `Nmesh > 0` and the ghost widths, then resizes the output vector to
`NumPart` and fills it with the interpolated values. -/
def interpolateGridToParticlePositions (sh : GridShape) (ORDER : ℕ) (buf : ℤ → ℚ)
    (parts : List (List ℚ)) : Except String (List ℚ) :=
  if 0 < sh.M then
    let nextra := extraSlicesNeededByOrder ORDER
    if nextra.1 ≤ sh.gL ∧ nextra.2 ≤ sh.gR then
      Except.ok (parts.map (interpolateValue ORDER sh.M buf))
    else Except.error tooFewExtraSlicesMsg
  else Except.error gridNotAllocatedMsg

/-! ### The string-dispatch wrappers, lines 85-111

The C++ bodies are five successive (non-`else`) `if` statements comparing the
label against "NGP", "CIC", "TSC", "PCS", "PQS"; a string equals at most one
of the five literals, so at most one branch runs and an unknown label falls
through leaving the by-reference grid (resp. value vector) untouched — the
else-chain with identity fall-through below is the same function. -/

/-- `particles_to_grid(part, NumPart, NumPartTot, density, method)`
(lines 85-97). -/
def particlesToGridByName (sh : GridShape) (parts : List (List ℚ)) (numPartTot : ℕ)
    (buf : ℤ → ℚ) (name : String) : Except String (ℤ → ℚ) :=
  if name = "NGP" then particlesToGrid sh 1 parts numPartTot buf
  else if name = "CIC" then particlesToGrid sh 2 parts numPartTot buf
  else if name = "TSC" then particlesToGrid sh 3 parts numPartTot buf
  else if name = "PCS" then particlesToGrid sh 4 parts numPartTot buf
  else if name = "PQS" then particlesToGrid sh 5 parts numPartTot buf
  else Except.ok buf

/-- `interpolate_grid_to_particle_positions(grid, part, NumPart, values,
method)` (lines 99-111); `values` is the current content of the by-reference
output vector. -/
def interpolateByName (sh : GridShape) (buf : ℤ → ℚ) (parts : List (List ℚ))
    (values : List ℚ) (name : String) : Except String (List ℚ) :=
  if name = "NGP" then interpolateGridToParticlePositions sh 1 buf parts
  else if name = "CIC" then interpolateGridToParticlePositions sh 2 buf parts
  else if name = "TSC" then interpolateGridToParticlePositions sh 3 buf parts
  else if name = "PCS" then interpolateGridToParticlePositions sh 4 buf parts
  else if name = "PQS" then interpolateGridToParticlePositions sh 5 buf parts
  else Except.ok values

/-! ### `FFTWGrid::communicate_boundaries`, FFTWGrid.h lines 560-609

The exchange copies whole padded slabs (`bytes_slice = NmeshTotRealSlice *
sizeof(FloatType)`), so it is modelled at slab granularity: a buffer is a
per-process function from slab index to slab content (an opaque `α`), with
owned slabs at `[0, Local_nx)`, left ghosts at negative indices (`-1` next to
the owned region) and right ghosts at `[Local_nx, Local_nx + gR)`. -/

/-- Iteration `i` of the first loop (lines 577-591): every process sends
owned slab `i` to its left neighbour and receives into right-ghost slab `i`
from its right neighbour `(r+1) % P`; the single-task branch is the memcpy
of the same slabs with `(r+1) % 1 = r`. -/
def commStepRight {α : Type} (P nx : ℕ) (i : ℕ) (buf : ℕ → ℤ → α) : ℕ → ℤ → α :=
  fun r s => if r < P ∧ s = (nx : ℤ) + i then buf ((r + 1) % P) (i : ℤ) else buf r s

/-- Iteration `i` of the second loop (lines 593-608): every process sends
owned slab `Local_nx - 1 - i` to its right neighbour and receives from its
left neighbour `(r - 1 + P) % P` into the left-ghost slab at
`get_real_grid_left() + (gL - 1 - i)`, i.e. slab index `-1 - i`. -/
def commStepLeft {α : Type} (P nx : ℕ) (i : ℕ) (buf : ℕ → ℤ → α) : ℕ → ℤ → α :=
  fun r s => if r < P ∧ s = -1 - (i : ℤ) then buf ((r + P - 1) % P) ((nx : ℤ) - 1 - i) else buf r s

/-- `communicate_boundaries()`: clamp the counts to `Local_nx`
(lines 562-565), run the right-receiving loop, then the left-receiving
loop. -/
def commBoundaries {α : Type} (P nx gL gR : ℕ) (buf : ℕ → ℤ → α) : ℕ → ℤ → α :=
  let buf1 := (List.range (min gR nx)).foldl (fun b i => commStepRight P nx i b) buf
  (List.range (min gL nx)).foldl (fun b i => commStepLeft P nx i b) buf1

/-! ### The FFT driver `fftw_r2c` / `fftw_c2r`, FFTWGrid.h lines 811-916

The external in-place transform (`EXECUTE_FFT` of a plan built on the owned
region) is an arbitrary function on the whole buffer; everything the driver
itself does around it is modelled exactly: save the first `Nmesh/2+1` real
values of the right-ghost region when `gR > 0`, transform, flip the
real-space tag, normalize by `1/Nmesh^N` over the owned Fourier range
(forward only), restore the saved values. -/

/-- The real view plus the `grid_is_in_real_space` tag.  `buf` is indexed in
`FloatType` elements relative to `get_real_grid()` (single task:
`Local_nx = Nmesh`, so the right-ghost region starts at `Nmesh * slabReal`). -/
structure GridState (sh : GridShape) where
  buf : ℤ → ℚ
  inRealSpace : Bool

/-- `fftw_r2c()` (lines 811-866). The normalization loop multiplies every
complex cell of `get_fourier_range()` — the owned complex cells, real
elements `[0, Nmesh*slabReal)` — by `1/Nmesh^N`. -/
def fftwR2C (sh : GridShape) (transform : (ℤ → ℚ) → (ℤ → ℚ)) (st : GridState sh) :
    GridState sh :=
  let rightBase : ℤ := (sh.M : ℤ) * slabReal sh
  let saved := st.buf
  let b1 := transform st.buf
  let norm : ℚ := 1 / (sh.M : ℚ) ^ sh.N
  let b2 : ℤ → ℚ := fun j => if 0 ≤ j ∧ j < rightBase then b1 j * norm else b1 j
  let b3 : ℤ → ℚ :=
    if 0 < sh.gR then
      fun j => if rightBase ≤ j ∧ j < rightBase + ((sh.M / 2 + 1 : ℕ) : ℤ) then saved j else b2 j
    else b2
  { buf := b3, inRealSpace := false }

/-- `fftw_c2r()` (lines 868-916): the mirror of `fftw_r2c` without the
normalization, flipping the tag to real space. -/
def fftwC2R (sh : GridShape) (transform : (ℤ → ℚ) → (ℤ → ℚ)) (st : GridState sh) :
    GridState sh :=
  let rightBase : ℤ := (sh.M : ℤ) * slabReal sh
  let saved := st.buf
  let b1 := transform st.buf
  let b3 : ℤ → ℚ :=
    if 0 < sh.gR then
      fun j => if rightBase ≤ j ∧ j < rightBase + ((sh.M / 2 + 1 : ℕ) : ℤ) then saved j else b1 j
    else b1
  { buf := b3, inRealSpace := true }

/-! ### `FoFHalo`, FoFBinning.h lines 27-143 -/

/-- A particle as consumed by the halo binning: position, velocity, mass. -/
structure FoFParticle (NDIM : ℕ) where
  pos : Fin NDIM → ℚ
  vel : Fin NDIM → ℚ
  mass : ℚ

/-- The accumulated halo quantities (`id`, `shared`, `merged` are
book-keeping for the linking algorithm and irrelevant here). -/
structure FoFHalo (NDIM : ℕ) where
  np : ℕ
  mass : ℚ
  pos : Fin NDIM → ℚ
  vel : Fin NDIM → ℚ
  vel2 : ℚ

/-- `FoFHalo::add(particle, periodic)` (lines 59-107): zero everything when
the halo is empty, shift the center of mass by `dx * m / (mass + m)` with
minimum-image differencing and wraparound when periodic, update the mass
weighted mean velocity and `<v^2>`, then `np++` and `mass += m`.  The two
`if`s of each periodic adjustment are sequential, as in the source. -/
def FoFHalo.add (h : FoFHalo NDIM) (p : FoFParticle NDIM) (periodic : Bool) : FoFHalo NDIM :=
  let m := p.mass
  let h0 := if h.np = 0 then
      { h with pos := fun _ => 0, vel := fun _ => 0, mass := 0, vel2 := 0 } else h
  let dx : Fin NDIM → ℚ := fun idim =>
    let d := p.pos idim - h0.pos idim
    if periodic then
      (let d1 := if d < -(1/2) then d + 1 else d; if 1/2 ≤ d1 then d1 - 1 else d1)
    else d
  let pos' : Fin NDIM → ℚ := fun idim =>
    let q := h0.pos idim + dx idim * m / (h0.mass + m)
    if periodic then (let q1 := if q < 0 then q + 1 else q; if 1 ≤ q1 then q1 - 1 else q1) else q
  let vel' : Fin NDIM → ℚ := fun idim => (h0.vel idim * h0.mass + p.vel idim * m) / (h0.mass + m)
  let v2 : ℚ := (Finset.univ : Finset (Fin NDIM)).sum (fun idim => vel' idim * vel' idim)
  { np := h0.np + 1, mass := h0.mass + m, pos := pos', vel := vel',
    vel2 := (h0.vel2 * h0.mass + m * v2) / (h0.mass + m) }

/-- `FoFHalo::merge(g, periodic)` (lines 110-142): return unchanged when `g`
is empty; assert (`Except.error`) when the receiving halo is empty; otherwise
merge the centers of mass, velocities and `<v^2>` with weights `mass` and
`g.mass`, and take over `g`'s particle count.  Note that the source updates
`np += g.np` but never adds `g.mass` to `mass`. -/
def FoFHalo.merge (h g : FoFHalo NDIM) (periodic : Bool) : Except String (FoFHalo NDIM) :=
  if g.np = 0 then Except.ok h
  else if h.np = 0 then Except.error "assert(false): merge into empty halo"
  else
    let dx : Fin NDIM → ℚ := fun idim =>
      let d := g.pos idim - h.pos idim
      if periodic then
        (let d1 := if d < -(1/2) then d + 1 else d; if 1/2 ≤ d1 then d1 - 1 else d1)
      else d
    let pos' : Fin NDIM → ℚ := fun idim =>
      let q := h.pos idim + dx idim * g.mass / (h.mass + g.mass)
      if periodic then (let q1 := if q < 0 then q + 1 else q; if 1 ≤ q1 then q1 - 1 else q1) else q
    let vel' : Fin NDIM → ℚ := fun idim =>
      (h.vel idim * h.mass + g.vel idim * g.mass) / (h.mass + g.mass)
    Except.ok { np := h.np + g.np, mass := h.mass, pos := pos', vel := vel',
                vel2 := (h.vel2 * h.mass + g.vel2 * g.mass) / (h.mass + g.mass) }

/-! ### Claims -/

/-- C2: the claim says the `p^N` scatter weights sum to exactly 1 for every
order `p ∈ 1..5` and every position strictly inside the box.  For `p = 1`
(NGP) and an in-cell offset `δ > 1/2` the code forces the stencil offset to
`0` (`ORDER == 1 ? 0 : …`), ignoring the `xstart` shift it just computed, so
the single weight is `kernel<1>(δ) = 0` and the sum is `0`, not `1` — the
`DEBUG_INTERPOL` assertion `|Σw − 1| < 10⁻³` of the same function would
fire.  Evaluation at the failing input `δ = 4/5`. -/
theorem C2_order1_weight_sum_zero :
    scatterWeightSum 1 [4/5] = 0 ∧ (0 : ℚ) ≠ 1 := by
  constructor
  · norm_num [scatterWeightSum, stencilWeight, kernel, cppFabs, goLeftRightOrStay, xstart,
      List.range_succ]
  · norm_num

/-- C1: the claim asserts `∑ cells + M^N = (M^N / N_total) · N_local_total`
after scatter + ghost reduction for every order `p ∈ 1..5`.  At order 1 the
NGP slip of C2 deposits total weight `0` for a particle with an in-cell
offset above `1/2`, so with `N = 2`, `M = 2`, one particle at `(1/8, 7/8)`:
the active cells sum to `-4` and `-4 + M^N = 0`, while the claim demands
`(M^N / N_total) · N_local_total = 4`. -/
theorem C1_order1_mass_conservation_fails :
    Except.map (fun g => sumActiveCells ⟨2, 2, 0, 0⟩ g)
      (particlesToGrid ⟨2, 2, 0, 0⟩ 1 [[1/8, 7/8]] 1 (fun _ => 0)) = Except.ok (-4) ∧
    (-4 : ℚ) + (2 : ℚ) ^ 2 ≠ ((2 : ℚ) ^ 2 / 1) * 1 := by
  constructor
  · norm_num [particlesToGrid, fillReal, depositParticle, scatterPrep, stencilCoord,
      stencilWeight, goLeftRightOrStay, xstart, kernel, cppFabs, cppTrunc, periodicWrap,
      get_index_real, addContributionFromExtraSlices, slabReal, slabComplex, massConst,
      localXStart, sumActiveCells, coordTuples, extraSlicesNeededByOrder, List.range_succ,
      Except.map]
  · norm_num

/-- C4 counterexample: the claim's formula `n + 2·⌊n/M⌋` fails for odd mesh
sizes: at `M = 3` the third emitted value is `4` (the padding of the in-place
layout `2·(M/2+1)` is one lane for odd `M`), not `3 + 2·(3/3) = 5`. -/
theorem C4_counterexample_odd_mesh :
    realRangeValue 3 3 ≠ 3 + 2 * (3 / 3) := by decide

/-- Iterating the increment one more time is incrementing the result. -/
lemma LoopIteratorReal.incN_succ (n : ℕ) (it : LoopIteratorReal) :
    LoopIteratorReal.incN (n + 1) it = (LoopIteratorReal.incN n it).inc := by
  induction n generalizing it with
  | zero => rfl
  | succ n ih => exact ih it.inc

/-- The increment never touches `Nmesh` and `odd`, and advances `index` by
one per step. -/
lemma LoopIteratorReal.incN_fields (n : ℕ) (it : LoopIteratorReal) :
    (LoopIteratorReal.incN n it).Nmesh = it.Nmesh ∧
    (LoopIteratorReal.incN n it).odd = it.odd ∧
    (LoopIteratorReal.incN n it).index = it.index + n := by
  induction n generalizing it with
  | zero => exact ⟨rfl, rfl, rfl⟩
  | succ n ih =>
    obtain ⟨h1, h2, h3⟩ := ih it.inc
    have h3' : (LoopIteratorReal.incN (n + 1) it).index = it.index + 1 + n := h3
    exact ⟨h1, h2, by omega⟩

/-- The effect of one increment on the emitted value, read off the
definition. -/
lemma LoopIteratorReal.inc_real_index (it : LoopIteratorReal) :
    it.inc.real_index =
      it.real_index +
        (if (it.index + 1) % it.Nmesh = 0 then (if it.odd = 1 then 1 else 2) else 0) + 1 := rfl

/-- C4 amended: the `n`-th value emitted by the real-range iterator is
`n + (2·(M/2+1) − M)·⌊n/M⌋`, i.e. it skips exactly the `2·(M/2+1) − M`
padding lanes (2 for even `M`, 1 for odd `M`) at the end of every row of `M`
last-axis cells, so consecutive rows start at multiples of `2·(M/2+1)`. -/
theorem C4_amended_real_range_value (M : ℕ) (hM : 1 ≤ M) (n : ℕ) :
    realRangeValue n M = n + (2 * (M / 2 + 1) - M) * (n / M) := by
  induction n with
  | zero => simp [realRangeValue, LoopIteratorReal.incN, LoopIteratorReal.mk']
  | succ n ih =>
    obtain ⟨h1, h2, h3⟩ := LoopIteratorReal.incN_fields n (LoopIteratorReal.mk' 0 M)
    have hstep : realRangeValue (n + 1) M =
        realRangeValue n M +
          (if (n + 1) % M = 0 then (if M % 2 = 1 then 1 else 2) else 0) + 1 := by
      unfold realRangeValue
      rw [LoopIteratorReal.incN_succ, LoopIteratorReal.inc_real_index]
      simp only [LoopIteratorReal.mk', Nat.zero_div, Nat.mul_zero, Nat.add_zero,
        Nat.zero_add] at h1 h2 h3 ⊢
      simp [h1, h2, h3]
    have hs : (if M % 2 = 1 then 1 else 2) = 2 * (M / 2 + 1) - M := by
      rcases Nat.mod_two_eq_zero_or_one M with h | h <;> simp [h] <;> omega
    rw [hstep, ih, Nat.succ_div, hs]
    by_cases hdvd : M ∣ n + 1
    · rw [if_pos hdvd, if_pos (Nat.dvd_iff_mod_eq_zero.mp hdvd)]
      ring
    · rw [if_neg hdvd, if_neg (fun h => hdvd (Nat.dvd_iff_mod_eq_zero.mpr h))]
      ring

/-- C4 amended witness. -/
theorem C4_amended_witness :
    1 ≤ 3 ∧ realRangeValue 7 3 = 7 + (2 * (3 / 2 + 1) - 3) * (7 / 3) :=
  ⟨by decide, C4_amended_real_range_value 3 (by decide) 7⟩

/-- The first exchange loop leaves every slot other than its write targets
`nx + i` untouched. -/
lemma commFoldRight_ne {α : Type} (P nx : ℕ) (l : List ℕ) (buf : ℕ → ℤ → α)
    (r : ℕ) (s : ℤ) (h : ∀ i ∈ l, s ≠ (nx : ℤ) + i) :
    (l.foldl (fun b i => commStepRight P nx i b) buf) r s = buf r s := by
  induction l generalizing buf with
  | nil => rfl
  | cons i t ih =>
    rw [List.foldl_cons, ih _ (fun i' hi' => h i' (List.mem_cons_of_mem i hi'))]
    simp [commStepRight, h i (List.mem_cons_self i t)]

/-- The second exchange loop leaves every slot other than its write targets
`-1 - i` untouched. -/
lemma commFoldLeft_ne {α : Type} (P nx : ℕ) (l : List ℕ) (buf : ℕ → ℤ → α)
    (r : ℕ) (s : ℤ) (h : ∀ i ∈ l, s ≠ -1 - (i : ℤ)) :
    (l.foldl (fun b i => commStepLeft P nx i b) buf) r s = buf r s := by
  induction l generalizing buf with
  | nil => rfl
  | cons i t ih =>
    rw [List.foldl_cons, ih _ (fun i' hi' => h i' (List.mem_cons_of_mem i hi'))]
    simp [commStepLeft, h i (List.mem_cons_self i t)]

/-- Owned slabs (`0 ≤ s < nx`) are never written by either loop. -/
lemma commFoldRight_owned {α : Type} (P nx : ℕ) (l : List ℕ) (buf : ℕ → ℤ → α)
    (r : ℕ) (s : ℤ) (h0 : 0 ≤ s) (hs : s < (nx : ℤ)) :
    (l.foldl (fun b i => commStepRight P nx i b) buf) r s = buf r s :=
  commFoldRight_ne P nx l buf r s (fun i _ => by omega)

/-- After the first loop over `List.range cR` with `cR ≤ nx`, right-ghost
slab `nx + i` (`i < cR`) of process `r < P` holds owned slab `i` of the right
neighbour. -/
lemma commFoldRight_value {α : Type} (P nx : ℕ) (buf : ℕ → ℤ → α) (r : ℕ)
    (hr : r < P) (cR : ℕ) (hcR : cR ≤ nx) (i : ℕ) (hi : i < cR) :
    ((List.range cR).foldl (fun b i => commStepRight P nx i b) buf) r ((nx : ℤ) + i) =
      buf ((r + 1) % P) (i : ℤ) := by
  induction cR generalizing i with
  | zero => omega
  | succ c ih =>
    rw [List.range_succ, List.foldl_append, List.foldl_cons, List.foldl_nil]
    by_cases hic : i = c
    · subst hic
      simp only [commStepRight, hr, true_and, if_pos rfl]
      exact commFoldRight_owned P nx _ buf ((r + 1) % P) (i : ℤ) (by omega) (by omega)
    · have : ((nx : ℤ) + i) ≠ (nx : ℤ) + c := by omega
      simp only [commStepRight]
      rw [if_neg (by tauto)]
      exact ih (by omega) i (by omega)

/-- After the second loop over `List.range cL` with `cL ≤ nx`, left-ghost
slab `-1 - i` (`i < cL`) of process `r < P` holds owned slab `nx - 1 - i` of
the left neighbour (reading owned slabs of the state the loop started
from). -/
lemma commFoldLeft_value {α : Type} (P nx : ℕ) (buf : ℕ → ℤ → α) (r : ℕ)
    (hr : r < P) (cL : ℕ) (hcL : cL ≤ nx) (i : ℕ) (hi : i < cL) :
    ((List.range cL).foldl (fun b i => commStepLeft P nx i b) buf) r (-1 - (i : ℤ)) =
      buf ((r + P - 1) % P) ((nx : ℤ) - 1 - i) := by
  induction cL generalizing i with
  | zero => omega
  | succ c ih =>
    rw [List.range_succ, List.foldl_append, List.foldl_cons, List.foldl_nil]
    by_cases hic : i = c
    · subst hic
      simp only [commStepLeft, hr, true_and, if_pos rfl]
      exact commFoldLeft_ne P nx _ buf ((r + P - 1) % P) _ (fun i' _ => by omega)
    · have : (-1 - (i : ℤ)) ≠ -1 - (c : ℤ) := by omega
      simp only [commStepLeft]
      rw [if_neg (by tauto)]
      exact ih (by omega) i (by omega)

/-- C3 counterexample input: the claim as stated, at the given ring
parameters and buffer: `min(gR, nx)` rightmost owned slabs of `r` appear in
the top left-ghost slots of its right neighbour, and `min(gL, nx)` leftmost
owned slabs of `r` appear in the right-ghost slots `nx + i` of its left
neighbour. -/
def claimC3Stated (P nx gL gR : ℕ) (buf : ℕ → ℤ → ℤ) : Prop :=
  (∀ r < P, ∀ i < min gR nx,
    commBoundaries P nx gL gR buf ((r + 1) % P) (-1 - (i : ℤ)) = buf r ((nx : ℤ) - 1 - i)) ∧
  (∀ r < P, ∀ i < min gL nx,
    commBoundaries P nx gL gR buf ((r + P - 1) % P) ((nx : ℤ) + i) = buf r (i : ℤ))

/-- C3 counterexample: with `P = 1`, `nx = 3`, `gL = 2`, `gR = 1` the claim's
counts are swapped: it predicts `min(gL, nx) = 2` slabs copied into the
right-ghost region, but the code copies only `min(gR, nx) = 1` there (and
`min(gL, nx) = 2` into the left ghosts), so right-ghost slot `nx + 1 = 4`
keeps its old value `4` instead of the predicted owned slab `1`. -/
theorem C3_counterexample : ¬ claimC3Stated 1 3 2 1 (fun _ s => s) :=
  fun h => absurd (h.2 0 (by decide) 1 (by decide)) (by decide)

/-- C3 amended: `communicate_boundaries` copies the `min(gL, local_nx)`
rightmost owned slabs of each process into the (top slots of the) left-ghost
region of its right neighbour, and the `min(gR, local_nx)` leftmost owned
slabs into the right-ghost region of its left neighbour; owned slabs are
unchanged; with `P = 1` the neighbour indices degenerate to the process
itself, giving local copies with periodic wrap-around. -/
theorem C3_amended_communicate_boundaries {α : Type} (P nx gL gR : ℕ)
    (buf : ℕ → ℤ → α) (r : ℕ) (hr : r < P) :
    (∀ i : ℕ, i < min gR nx →
      commBoundaries P nx gL gR buf r ((nx : ℤ) + i) = buf ((r + 1) % P) (i : ℤ)) ∧
    (∀ i : ℕ, i < min gL nx →
      commBoundaries P nx gL gR buf r (-1 - (i : ℤ)) = buf ((r + P - 1) % P) ((nx : ℤ) - 1 - i)) ∧
    (∀ s : ℤ, 0 ≤ s → s < (nx : ℤ) → commBoundaries P nx gL gR buf r s = buf r s) := by
  refine ⟨fun i hi => ?_, fun i hi => ?_, fun s h0 hs => ?_⟩
  · unfold commBoundaries
    rw [commFoldLeft_ne P nx _ _ r _ (fun i' _ => by omega)]
    exact commFoldRight_value P nx buf r hr (min gR nx) (Nat.min_le_right gR nx) i hi
  · unfold commBoundaries
    rw [commFoldLeft_value P nx _ r hr (min gL nx) (Nat.min_le_right gL nx) i hi]
    exact commFoldRight_owned P nx _ buf _ _ (by omega) (by omega)
  · unfold commBoundaries
    rw [commFoldLeft_ne P nx _ _ r s (fun i' _ => by omega)]
    exact commFoldRight_owned P nx _ buf r s h0 hs

/-- C3 amended witness: the concrete ring of the counterexample, seen from
the amended statement: right-ghost slot `3` holds owned slab `0`, left-ghost
slot `-1` holds owned slab `2`, owned slab `1` is untouched. -/
theorem C3_amended_witness :
    (0 : ℕ) < 1 ∧
    commBoundaries 1 3 2 1 (fun _ s => s) 0 ((3 : ℤ) + (0 : ℕ)) = ((0 : ℕ) : ℤ) ∧
    commBoundaries 1 3 2 1 (fun _ s => s) 0 (-1 - ((0 : ℕ) : ℤ)) = (3 : ℤ) - 1 - (0 : ℕ) ∧
    commBoundaries 1 3 2 1 (fun _ s => s) 0 1 = 1 := by
  have h := C3_amended_communicate_boundaries 1 3 2 1 (fun _ s => s) 0 (by decide)
  exact ⟨by decide, h.1 0 (by decide), h.2.1 0 (by decide), h.2.2 1 (by decide) (by decide)⟩

/-- C5 counterexample: the claimed bounds on
`get_extra_slices_needed_by_order` fail: for `p = 2` the left component is
`0 < 1 = ⌊p/2⌋`, and for the odd order `p = 1` the right component is `0`,
not `⌊p/2⌋ + 1 = 1`. -/
theorem C5_counterexample :
    ¬ (2 / 2 ≤ (extraSlicesNeededByOrder 2).1) ∧
    (extraSlicesNeededByOrder 1).2 ≠ 1 / 2 + 1 := by decide

/-- C5 amended: in the default corner-centered layout the helper returns
`(0,0)` for order 1, `(p/2 − 1, p/2)` for even `p` and `(p/2, p/2 + 1)` for
odd `p ≥ 3`; and `particles_to_grid` asserts (fails) on any grid allocated
with fewer extra slices on either side than the helper returns. -/
theorem C5_amended_extra_slices :
    (extraSlicesNeededByOrder 1 = (0, 0) ∧ extraSlicesNeededByOrder 2 = (0, 1) ∧
     extraSlicesNeededByOrder 3 = (1, 2) ∧ extraSlicesNeededByOrder 4 = (1, 2) ∧
     extraSlicesNeededByOrder 5 = (2, 3)) ∧
    ∀ (sh : GridShape) (ORDER : ℕ) (parts : List (List ℚ)) (tot : ℕ) (buf : ℤ → ℚ),
      sh.gL < (extraSlicesNeededByOrder ORDER).1 ∨ sh.gR < (extraSlicesNeededByOrder ORDER).2 →
      particlesToGrid sh ORDER parts tot buf = Except.error tooFewExtraSlicesMsg := by
  refine ⟨by decide, ?_⟩
  intro sh ORDER parts tot buf h
  have : ¬ ((extraSlicesNeededByOrder ORDER).1 ≤ sh.gL ∧
      (extraSlicesNeededByOrder ORDER).2 ≤ sh.gR) := by omega
  simp [particlesToGrid, this]

/-- C5 amended witness: order 3 needs `(1, 2)`; a grid with no left ghost is
rejected. -/
theorem C5_amended_witness :
    particlesToGrid ⟨2, 4, 0, 2⟩ 3 [] 1 (fun _ => 0) = Except.error tooFewExtraSlicesMsg :=
  C5_amended_extra_slices.2 ⟨2, 4, 0, 2⟩ 3 [] 1 (fun _ => 0) (Or.inl (by decide))

/-- Shifting the seed of the index recurrence by `y` shifts the result by
`y * M^len`. -/
lemma foldl_mul_add_shift (l : List ℤ) (M x y : ℤ) :
    l.foldl (fun a c => a * M + c) (x + y) =
      l.foldl (fun a c => a * M + c) x + y * M ^ l.length := by
  induction l generalizing x y with
  | nil => simp
  | cons c t ih =>
    simp only [List.foldl_cons, List.length_cons]
    rw [show (x + y) * M + c = (x * M + c) + y * M by ring, ih]
    ring

/-- C6: for every coordinate tuple of length `N ≥ 2` (first component free to
address ghosts, as in the claim), the pointer offset `gL * NmeshTotRealSlice`
by which `get_real` skips the left-ghost slabs plus `get_index_real` equals
the spec's padded recurrence
`(((…(c0 + gL)·M + c1)·M + c2)…)·(2·(M/2+1)) + c_{N−1}`. -/
theorem C6_index_real_matches_spec (sh : GridShape) (coord : List ℤ)
    (hN : sh.N = coord.length) (h2 : 2 ≤ coord.length) :
    (sh.gL : ℤ) * slabReal sh + get_index_real sh.M coord =
      specIdxReal sh.M sh.gL coord := by
  rcases coord with _ | ⟨a, _ | ⟨b, t⟩⟩
  · simp at h2
  · simp at h2
  rcases t with _ | ⟨c, t⟩
  · -- N = 2
    simp only [List.length_cons, List.length_nil] at hN
    simp only [get_index_real, specIdxReal, slabReal, slabComplex, hN]
    norm_num [List.dropLast, List.getLastD]
    ring
  rcases t with _ | ⟨d, t⟩
  · -- N = 3
    simp only [List.length_cons, List.length_nil] at hN
    simp only [get_index_real, specIdxReal, slabReal, slabComplex, hN]
    norm_num [List.dropLast, List.getLastD]
    ring
  · -- N ≥ 4: the general loop
    have hlen : (a :: b :: c :: d :: t).length = t.length + 4 := by simp
    simp only [get_index_real, specIdxReal, slabReal, slabComplex, hN, hlen]
    rw [if_neg (by omega), if_neg (by omega)]
    simp only [List.tail_cons, List.headD_cons, List.dropLast_cons₂]
    rw [foldl_mul_add_shift]
    have hmidlen : (b :: c :: (d :: t).dropLast).length = t.length + 2 := by simp
    rw [hmidlen]
    have : t.length + 4 - 2 = t.length + 2 := by omega
    rw [this]
    push_cast
    ring

/-- C6 witness: `N = 3`, `M = 4`, `gL = 1`, ghost coordinate `c0 = -1`. -/
theorem C6_witness :
    (⟨3, 4, 1, 0⟩ : GridShape).N = ([-1, 2, 3] : List ℤ).length ∧
    2 ≤ ([-1, 2, 3] : List ℤ).length ∧
    ((1 : ℕ) : ℤ) * slabReal ⟨3, 4, 1, 0⟩ + get_index_real 4 [-1, 2, 3] =
      specIdxReal 4 1 [-1, 2, 3] :=
  ⟨by decide, by decide, C6_index_real_matches_spec ⟨3, 4, 1, 0⟩ [-1, 2, 3] (by decide) (by decide)⟩

/-- C7: for a grid with at least one right-ghost slab, both `fftw_r2c` and
`fftw_c2r` leave the first `Nmesh/2+1` real values of the right-ghost region
(offsets `Local_nx * NmeshTotRealSlice + j`, `0 ≤ j < Nmesh/2+1`) equal to
their values before the call, whatever the external in-place transform wrote
there; `fftw_r2c` flips the real-space tag to `false` and `fftw_c2r` to
`true`. -/
theorem C7_fft_preserves_right_ghost (sh : GridShape) (hgR : 0 < sh.gR)
    (transform : (ℤ → ℚ) → ℤ → ℚ) (st : GridState sh) (j : ℤ)
    (hj0 : 0 ≤ j) (hj : j < ((sh.M / 2 + 1 : ℕ) : ℤ)) :
    ((fftwR2C sh transform st).buf ((sh.M : ℤ) * slabReal sh + j) =
        st.buf ((sh.M : ℤ) * slabReal sh + j) ∧
      (fftwR2C sh transform st).inRealSpace = false) ∧
    ((fftwC2R sh transform st).buf ((sh.M : ℤ) * slabReal sh + j) =
        st.buf ((sh.M : ℤ) * slabReal sh + j) ∧
      (fftwC2R sh transform st).inRealSpace = true) := by
  refine ⟨⟨?_, rfl⟩, ⟨?_, rfl⟩⟩ <;>
  · simp only [fftwR2C, fftwC2R, if_pos hgR]
    rw [if_pos ⟨by omega, by omega⟩]

/-- C7 witness: a concrete 2-D grid with one right-ghost slab and a transform
that overwrites everything. -/
theorem C7_witness :
    (0 : ℕ) < (⟨2, 4, 0, 1⟩ : GridShape).gR ∧ (0 : ℤ) ≤ 2 ∧
    (2 : ℤ) < (((⟨2, 4, 0, 1⟩ : GridShape).M / 2 + 1 : ℕ) : ℤ) ∧
    ((fftwR2C ⟨2, 4, 0, 1⟩ (fun _ => fun _ => 100) ⟨fun i => (i : ℚ), true⟩).buf
        (((⟨2, 4, 0, 1⟩ : GridShape).M : ℤ) * slabReal ⟨2, 4, 0, 1⟩ + 2) =
      (⟨fun i => (i : ℚ), true⟩ : GridState ⟨2, 4, 0, 1⟩).buf
        (((⟨2, 4, 0, 1⟩ : GridShape).M : ℤ) * slabReal ⟨2, 4, 0, 1⟩ + 2)) ∧
    (fftwC2R ⟨2, 4, 0, 1⟩ (fun _ => fun _ => 100) ⟨fun i => (i : ℚ), false⟩).inRealSpace = true := by
  have h1 := C7_fft_preserves_right_ghost ⟨2, 4, 0, 1⟩ (by decide)
    (fun _ => fun _ => 100) ⟨fun i => (i : ℚ), true⟩ 2 (by decide) (by decide)
  have h2 := C7_fft_preserves_right_ghost ⟨2, 4, 0, 1⟩ (by decide)
    (fun _ => fun _ => 100) ⟨fun i => (i : ℚ), false⟩ 2 (by decide) (by decide)
  exact ⟨by decide, by decide, by decide, h1.1.1, h2.2.2⟩

/-- C8 counterexample: the claim says a particle with a position component
outside `[0,1)` makes `particles_to_grid` fail.  Instead, with `N = 2`,
`M = 2` and a single particle at `(1/8, 5/4)` (second component out of
range) the scatter completes (`Except.ok`) and silently wraps the particle
onto cell `(0,0)`, depositing the full `norm_fac = 4` there: the run yields
the same cell value `3 = -1 + 4` as the wrapped in-range particle
`(1/8, 1/4)` would. -/
theorem C8_counterexample_silent_wrap :
    Except.map (fun g => g (get_index_real 2 [0, 0]))
      (particlesToGrid ⟨2, 2, 0, 0⟩ 1 [[1/8, 5/4]] 1 (fun _ => 0)) = Except.ok 3 ∧
    Except.map (fun g => g (get_index_real 2 [0, 0]))
      (particlesToGrid ⟨2, 2, 0, 0⟩ 1 [[1/8, 1/4]] 1 (fun _ => 0)) = Except.ok 3 := by
  constructor <;>
  · norm_num [particlesToGrid, fillReal, depositParticle, scatterPrep, stencilCoord,
      stencilWeight, goLeftRightOrStay, xstart, kernel, cppFabs, cppTrunc, periodicWrap,
      get_index_real, addContributionFromExtraSlices, slabReal, slabComplex, massConst,
      localXStart, extraSlicesNeededByOrder, List.range_succ,
      show (List.range 1 : List ℕ) = [0] from rfl, Except.map, List.foldl_cons, List.foldl_nil]

/-- C8 amended: `particles_to_grid` performs no validation of particle
positions at all: whenever the grid has the extra slices the order demands,
the call returns normally (`Except.ok`) with the deposited grid, whatever the
positions are; out-of-range components on periodic axes are silently wrapped
(see the counterexample) rather than rejected. -/
theorem C8_amended_no_validation (sh : GridShape) (ORDER : ℕ) (parts : List (List ℚ))
    (tot : ℕ) (buf : ℤ → ℚ)
    (hL : (extraSlicesNeededByOrder ORDER).1 ≤ sh.gL)
    (hR : (extraSlicesNeededByOrder ORDER).2 ≤ sh.gR) :
    particlesToGrid sh ORDER parts tot buf =
      Except.ok (addContributionFromExtraSlices sh
        (parts.foldl (fun b p => depositParticle ORDER sh.M ((sh.M : ℚ) ^ sh.N / tot) p b)
          (fillReal sh (-1) buf))) := by
  simp [particlesToGrid, hL, hR]

/-- C8 amended witness: the out-of-range particle set of the counterexample
is accepted. -/
theorem C8_amended_witness :
    (extraSlicesNeededByOrder 1).1 ≤ (0 : ℕ) ∧ (extraSlicesNeededByOrder 1).2 ≤ (0 : ℕ) ∧
    particlesToGrid ⟨2, 2, 0, 0⟩ 1 [[1/8, 9/4]] 1 (fun _ => 0) =
      Except.ok (addContributionFromExtraSlices ⟨2, 2, 0, 0⟩
        (([[1/8, 9/4]] : List (List ℚ)).foldl
          (fun b p => depositParticle 1 2 (((2 : ℕ) : ℚ) ^ (2 : ℕ) / (1 : ℕ)) p b)
          (fillReal ⟨2, 2, 0, 0⟩ (-1) (fun _ => 0)))) :=
  ⟨by decide, by decide,
    C8_amended_no_validation ⟨2, 2, 0, 0⟩ 1 [[1/8, 9/4]] 1 (fun _ => 0) (by decide) (by decide)⟩

/-- The particles and empty halo of the C9 evaluation. -/
def c9particleA : FoFParticle 1 := ⟨fun _ => 1/5, fun _ => 0, 1⟩

/-- Second particle of the C9 evaluation. -/
def c9particleB : FoFParticle 1 := ⟨fun _ => 2/5, fun _ => 0, 1⟩

/-- A freshly constructed halo (`FoFHalo(id, shared)` leaves the accumulators
at their `np = 0, mass = 0, vel2 = 0` defaults; `add` zeroes `pos`/`vel` on
first use). -/
def c9empty : FoFHalo 1 := ⟨0, 0, fun _ => 0, fun _ => 0, 0⟩

/-- C9: the claim says that after `add`s and `merge`s the halo's `np` is the
total number of particles and its `mass` the sum of their masses.  `np` is
right, but `FoFHalo::merge` never adds `g.mass` to `mass` (it updates `np`,
`pos`, `vel`, `vel2` with weights `mass` and `g.mass` but omits
`mass += g.mass`): merging two one-particle unit-mass halos leaves
`np = 2` and `mass = 1`, while the particle masses sum to `2`. -/
theorem C9_merge_drops_mass :
    Except.map (fun h => (h.np, h.mass))
      ((c9empty.add c9particleA false).merge (c9empty.add c9particleB false) false) =
      Except.ok (2, (1 : ℚ)) ∧
    c9particleA.mass + c9particleB.mass = 2 := by
  constructor
  · simp [FoFHalo.add, FoFHalo.merge, c9empty, c9particleA, c9particleB, Except.map]
  · norm_num [c9particleA, c9particleB]

/-- C10: the string-dispatch overloads compare the label against the five
method names in five successive `if`s with no `else` and no assertion: an
unknown label runs no branch, raises no error, and leaves the density grid
(resp. the output value vector) untouched. -/
theorem C10_unknown_name_is_noop (sh : GridShape) (parts : List (List ℚ)) (tot : ℕ)
    (buf : ℤ → ℚ) (values : List ℚ) (name : String)
    (h : name ≠ "NGP" ∧ name ≠ "CIC" ∧ name ≠ "TSC" ∧ name ≠ "PCS" ∧ name ≠ "PQS") :
    particlesToGridByName sh parts tot buf name = Except.ok buf ∧
    interpolateByName sh buf parts values name = Except.ok values := by
  obtain ⟨h1, h2, h3, h4, h5⟩ := h
  constructor
  · simp [particlesToGridByName, h1, h2, h3, h4, h5]
  · simp [interpolateByName, h1, h2, h3, h4, h5]

/-- C10 witness: the unknown label "XYZ" is a no-op on a concrete grid. -/
theorem C10_witness :
    particlesToGridByName ⟨2, 4, 0, 0⟩ [[1/2, 1/2]] 1 (fun _ => 5) ("XYZ") =
      Except.ok (fun _ => 5) ∧
    interpolateByName ⟨2, 4, 0, 0⟩ (fun _ => 5) [[1/2, 1/2]] [9] ("XYZ") =
      Except.ok [9] :=
  C10_unknown_name_is_noop ⟨2, 4, 0, 0⟩ [[1/2, 1/2]] 1 (fun _ => 5) [9] ("XYZ")
    ⟨by decide, by decide, by decide, by decide, by decide⟩

end FMLSpec
